import Mathlib

set_option maxRecDepth 100000

/-!
ArborWatcher — change-detection core, shallow embedding

A shallow embedding of the change-detection / notification-dedup engine of
`monitor_arbor_portal.py` (with the state-loading variant of
`assignments_watcher.py`), together with theorems settling the specification
claims about it.

The embedding covers:
* `hashlib.sha256(...).hexdigest()` — a full FIPS 180-4 SHA-256 over the
  UTF-8 bytes of a string, on `Nat` with explicit reduction modulo `2^32`;
* the per-section fingerprint basis and hash (`main`, lines 669–675);
* the per-section diff against the persisted baseline (`main`, lines 669–679);
* `build_digest`, `digest_sha`, `should_send_digest`, `post_telegram`;
* the tail of `main` (from the `if not all_items` guard to `save_state`) as a
  pure function from the loaded state, the scraped items, the clock and the
  notifier outcome to an ordered trace of observable effects;
* `load_state` of both scripts, with the state file abstracted to
  "absent / present-but-unparseable / parsed" (the JSON parser is external;
  `json.load` either returns the parsed value or raises).
-/

namespace ArborWatcher

/-! ## SHA-256 (FIPS 180-4) on `Nat`, explicit `% 2^32` -/

/-- Truncate to a 32-bit word. -/
def w32 (n : Nat) : Nat := n % 4294967296

/-- Right rotation of a 32-bit word by `n` places. -/
def rotr (n x : Nat) : Nat := w32 ((x >>> n) ||| (x <<< (32 - n)))

/-- `Ch(x,y,z) = (x ∧ y) ⊕ (¬x ∧ z)`; complement as xor with the 32-bit mask. -/
def ch (x y z : Nat) : Nat := (x &&& y) ^^^ ((x ^^^ 4294967295) &&& z)

/-- `Maj(x,y,z) = (x ∧ y) ⊕ (x ∧ z) ⊕ (y ∧ z)`. -/
def maj (x y z : Nat) : Nat := (x &&& y) ^^^ (x &&& z) ^^^ (y &&& z)

/-- `Σ₀` of FIPS 180-4. -/
def bigSigma0 (x : Nat) : Nat := rotr 2 x ^^^ rotr 13 x ^^^ rotr 22 x

/-- `Σ₁` of FIPS 180-4. -/
def bigSigma1 (x : Nat) : Nat := rotr 6 x ^^^ rotr 11 x ^^^ rotr 25 x

/-- `σ₀` of FIPS 180-4. -/
def smallSigma0 (x : Nat) : Nat := rotr 7 x ^^^ rotr 18 x ^^^ (x >>> 3)

/-- `σ₁` of FIPS 180-4. -/
def smallSigma1 (x : Nat) : Nat := rotr 17 x ^^^ rotr 19 x ^^^ (x >>> 10)

/-- The 64 SHA-256 round constants of FIPS 180-4 (the fractional parts of the
cube roots of the first 64 primes), written in decimal. -/
def shaK : List Nat :=
  [1116352408, 1899447441, 3049323471, 3921009573, 961987163, 1508970993,
   2453635748, 2870763221, 3624381080, 310598401, 607225278, 1426881987,
   1925078388, 2162078206, 2614888103, 3248222580, 3835390401, 4022224774,
   264347078, 604807628, 770255983, 1249150122, 1555081692, 1996064986,
   2554220882, 2821834349, 2952996808, 3210313671, 3336571891, 3584528711,
   113926993, 338241895, 666307205, 773529912, 1294757372, 1396182291,
   1695183700, 1986661051, 2177026350, 2456956037, 2730485921, 2820302411,
   3259730800, 3345764771, 3516065817, 3600352804, 4094571909, 275423344,
   430227734, 506948616, 659060556, 883997877, 958139571, 1322822218,
   1537002063, 1747873779, 1955562222, 2024104815, 2227730452, 2361852424,
   2428436474, 2756734187, 3204031479, 3329325298]

/-- Initial hash value `H⁽⁰⁾` of FIPS 180-4 (the fractional parts of the
square roots of the first 8 primes), written in decimal. -/
def shaH0 : Nat × Nat × Nat × Nat × Nat × Nat × Nat × Nat :=
  (1779033703, 3144134277, 1013904242, 2773480762,
   1359893119, 2600822924, 528734635, 1541459225)

/-- Big-endian 32-bit words from a byte list (groups of four; a trailing
incomplete group never occurs on padded input). -/
def bytesToWords : List Nat → List Nat
  | a :: b :: c :: d :: rest =>
      ((((a % 256) * 256 + b % 256) * 256 + c % 256) * 256 + d % 256) :: bytesToWords rest
  | _ => []

/-- One extension step of the message schedule: append
`σ₁(w[t−2]) + w[t−7] + σ₀(w[t−15]) + w[t−16] mod 2^32`. -/
def scheduleStep (w : List Nat) : List Nat :=
  w ++ [w32 (smallSigma1 (w.getD (w.length - 2) 0) + w.getD (w.length - 7) 0 +
             smallSigma0 (w.getD (w.length - 15) 0) + w.getD (w.length - 16) 0)]

/-- The 64-entry message schedule from the 16 words of one block. -/
def msgSchedule (w16 : List Nat) : List Nat := Nat.repeat scheduleStep 48 w16

/-- One round of the SHA-256 compression loop. -/
def shaRound (st : Nat × Nat × Nat × Nat × Nat × Nat × Nat × Nat) (kw : Nat × Nat) :
    Nat × Nat × Nat × Nat × Nat × Nat × Nat × Nat :=
  match st, kw with
  | (a, b, c, d, e, f, g, h), (k, w) =>
    let t1 := w32 (h + bigSigma1 e + ch e f g + k + w)
    let t2 := w32 (bigSigma0 a + maj a b c)
    (w32 (t1 + t2), a, b, c, w32 (d + t1), e, f, g)

/-- Process one 64-byte block: 64 compression rounds, then the feed-forward
addition into the chaining value. -/
def shaBlock (hv : Nat × Nat × Nat × Nat × Nat × Nat × Nat × Nat) (block : List Nat) :
    Nat × Nat × Nat × Nat × Nat × Nat × Nat × Nat :=
  let w := msgSchedule (bytesToWords block)
  match hv, (shaK.zip w).foldl shaRound hv with
  | (h0, h1, h2, h3, h4, h5, h6, h7), (a, b, c, d, e, f, g, h) =>
    (w32 (h0 + a), w32 (h1 + b), w32 (h2 + c), w32 (h3 + d),
     w32 (h4 + e), w32 (h5 + f), w32 (h6 + g), w32 (h7 + h))

/-- Split a byte list into 64-byte chunks; the fuel is an upper bound on the
number of chunks (each step consumes at least one byte). -/
def chunks64F : Nat → List Nat → List (List Nat)
  | 0, _ => []
  | _, [] => []
  | fuel + 1, b :: bs => ((b :: bs).take 64) :: chunks64F fuel ((b :: bs).drop 64)

/-- Split a byte list into 64-byte chunks. -/
def chunks64 (bs : List Nat) : List (List Nat) := chunks64F bs.length bs

/-- SHA-256 padding: append `0x80`, zeros to 56 mod 64, then the 64-bit
big-endian bit length. -/
def shaPad (msg : List Nat) : List Nat :=
  let L := msg.length
  let zeros := (64 - ((L + 9) % 64)) % 64
  let bitLen := (8 * L) % 18446744073709551616
  msg ++ 128 :: List.replicate zeros 0 ++
    [(bitLen >>> 56) % 256, (bitLen >>> 48) % 256, (bitLen >>> 40) % 256,
     (bitLen >>> 32) % 256, (bitLen >>> 24) % 256, (bitLen >>> 16) % 256,
     (bitLen >>> 8) % 256, bitLen % 256]

/-- Combine digest words big-endian into one natural number (the digest read
as a 256-bit integer, exactly what the hex rendering displays). -/
def wordsToNat (ws : List Nat) : Nat :=
  ws.foldl (fun acc w => acc * 4294967296 + w % 4294967296) 0

/-- The SHA-256 digest of a byte list, as a natural number below `2^256`. -/
def sha256Nat (msg : List Nat) : Nat :=
  match (chunks64 (shaPad msg)).foldl shaBlock shaH0 with
  | (h0, h1, h2, h3, h4, h5, h6, h7) => wordsToNat [h0, h1, h2, h3, h4, h5, h6, h7]

/-- Lower-case hex digit. -/
def hexChar (n : Nat) : Char := if n < 10 then Char.ofNat (48 + n) else Char.ofNat (87 + n)

/-- `d` hex digits of `n`, least significant first. -/
def hexDigitsLE : Nat → Nat → List Char
  | 0, _ => []
  | d + 1, n => hexChar (n % 16) :: hexDigitsLE d (n / 16)

/-- `n` rendered as exactly 64 lower-case hex characters (zero padded), the
`hexdigest()` of a 256-bit digest. -/
def toHex64 (n : Nat) : String := String.mk (hexDigitsLE 64 n).reverse

/-! ## UTF-8 encoding (`str.encode("utf-8", "ignore")`; Lean strings hold only
Unicode scalar values, so nothing is ever dropped) -/

/-- UTF-8 bytes of one code point. -/
def utf8EncodeChar (c : Nat) : List Nat :=
  if c < 128 then [c]
  else if c < 2048 then [192 ||| (c >>> 6), 128 ||| (c &&& 63)]
  else if c < 65536 then
    [224 ||| (c >>> 12), 128 ||| ((c >>> 6) &&& 63), 128 ||| (c &&& 63)]
  else
    [240 ||| (c >>> 18), 128 ||| ((c >>> 12) &&& 63),
     128 ||| ((c >>> 6) &&& 63), 128 ||| (c &&& 63)]

/-- UTF-8 bytes of a string. -/
def utf8Bytes (s : String) : List Nat := (s.data.map (fun c => utf8EncodeChar c.toNat)).flatten

/-- `sha(text)` of `monitor_arbor_portal.py` (lines 507–508):
`hashlib.sha256(text.encode("utf-8", "ignore")).hexdigest()`. -/
def sha (text : String) : String := toHex64 (sha256Nat (utf8Bytes text))

/-! ## Python string helpers used by the engine -/

/-- `sep.join(parts)`. -/
def pyJoin (sep : String) : List String → String
  | [] => ""
  | [s] => s
  | s :: rest => s ++ sep ++ pyJoin sep rest

/-- Whitespace for `str.strip` / `str.rstrip`, covering the ASCII whitespace
classes together with the further code points Python treats as space that can
occur in scraped text (NEL, NBSP, the Unicode space separators and the line
and paragraph separators). -/
def pyIsSpace (c : Char) : Bool :=
  c = ' ' || c = '\t' || c = '\n' || c = '\r' ||
  c = Char.ofNat 11 || c = Char.ofNat 12 ||
  c = Char.ofNat 28 || c = Char.ofNat 29 || c = Char.ofNat 30 || c = Char.ofNat 31 ||
  c = Char.ofNat 133 || c = Char.ofNat 160 ||
  c = Char.ofNat 5760 || (8192 ≤ c.toNat && c.toNat ≤ 8202) ||
  c = Char.ofNat 8232 || c = Char.ofNat 8233 ||
  c = Char.ofNat 8239 || c = Char.ofNat 8287 || c = Char.ofNat 12288

/-- `s.rstrip()`. -/
def pyRstrip (s : String) : String :=
  String.mk ((s.data.reverse.dropWhile pyIsSpace).reverse)

/-- `s.strip()`. -/
def pyStrip (s : String) : String :=
  String.mk (((s.data.dropWhile pyIsSpace).reverse.dropWhile pyIsSpace).reverse)

/-- The line-break code points of `str.splitlines`. -/
def pyIsLineBreak (c : Char) : Bool :=
  c = '\n' || c = '\r' || c = Char.ofNat 11 || c = Char.ofNat 12 ||
  c = Char.ofNat 28 || c = Char.ofNat 29 || c = Char.ofNat 30 ||
  c = Char.ofNat 133 || c = Char.ofNat 8232 || c = Char.ofNat 8233

/-- Worker for `splitlines`: `acc` holds the current line reversed. -/
def pySplitlinesAux : List Char → List Char → List String
  | [], acc => if acc.isEmpty then [] else [String.mk acc.reverse]
  | '\r' :: '\n' :: rest, acc => String.mk acc.reverse :: pySplitlinesAux rest []
  | c :: rest, acc =>
      if pyIsLineBreak c then String.mk acc.reverse :: pySplitlinesAux rest []
      else pySplitlinesAux rest (c :: acc)

/-- `s.splitlines()`: split at line boundaries (CRLF counting once), without a
trailing empty line for a trailing terminator. -/
def pySplitlines (s : String) : List String := pySplitlinesAux s.data []

/-! ## Data model and the engine of `monitor_arbor_portal.py` -/

/-- The `Item` dataclass (lines 99–104). -/
structure Item where
  «section» : String
  title : String
  meta : String
  when : String
deriving DecidableEq, Repr

/-- One step of `by_section.setdefault(it.section, []).append(it)`: append the
item to its section's bucket, creating the bucket at the end on first sight
(Python dicts preserve insertion order). -/
def addItem (acc : List (String × List Item)) (it : Item) : List (String × List Item) :=
  match acc with
  | [] => [(it.«section», [it])]
  | (s, its) :: rest =>
      if s = it.«section» then (s, its ++ [it]) :: rest
      else (s, its) :: addItem rest it

/-- `by_section` as built by the loops at lines 537–538 and 666–667. -/
def groupBySection (items : List Item) : List (String × List Item) :=
  items.foldl addItem []

/-- The record serialisation of the f-string at line 671:
`f"{i.title}|{i.meta}|{i.when}"`. -/
def serializeItem (i : Item) : String := i.title ++ "|" ++ i.meta ++ "|" ++ i.when

/-- The fingerprint basis of one section (line 671):
`"\n".join(f"{i.title}|{i.meta}|{i.when}" for i in items[:10])`. -/
def sectionBasis (items : List Item) : String :=
  pyJoin "\n" ((items.take 10).map serializeItem)

/-- The per-section fingerprint (line 672): `sha(basis)`. -/
def sectionFingerprint (items : List Item) : String := sha (sectionBasis items)

/-- The `current` mapping of section name to fingerprint (lines 669–673). -/
def currentFingerprints (items : List Item) : List (String × String) :=
  (groupBySection items).map (fun p => (p.1, sectionFingerprint p.2))

/-- The `changed_sections` list (lines 669–675): the sections of the current
snapshot whose fingerprint differs from `last.get(sec)` (a missing baseline
entry is `None`, which never equals a hash string). -/
def changedSections (items : List Item) (last : List (String × String)) : List String :=
  ((groupBySection items).filter
    (fun p => List.lookup p.1 last != some (sectionFingerprint p.2))).map (fun p => p.1)

/-- Python string comparison `a <= b`: code-point lexicographic. -/
def pyCharsLe : List Char → List Char → Bool
  | [], _ => true
  | _ :: _, [] => false
  | c :: cs, d :: ds =>
      if c.toNat < d.toNat then true
      else if d.toNat < c.toNat then false
      else pyCharsLe cs ds

/-- Python string comparison `a <= b` on strings. -/
def pyStrLe (a b : String) : Bool := pyCharsLe a.data b.data

/-- Insert a string into an ascending list, before the first element not
below it. -/
def insertSorted (s : String) : List String → List String
  | [] => [s]
  | t :: ts => if pyStrLe s t then s :: t :: ts else t :: insertSorted s ts

/-- `sorted(keys)`: dict keys are pairwise distinct, so the ascending
rearrangement is unique and an insertion sort realises Python's `sorted`. -/
def pySorted (l : List String) : List String := l.foldr insertSorted []

/-- One digest bullet line (lines 543–545). -/
def digestLine (i : Item) : String :=
  let suffix := if i.when = "" then "" else " — " ++ i.when
  let meta := if i.meta = "" then "" else " (" ++ i.meta ++ ")"
  "  - " ++ i.title ++ meta ++ suffix

/-- `build_digest(all_items)` (lines 535–546): every section of the snapshot
in sorted order, a heading and up to eight bullet lines each. -/
def buildDigest (allItems : List Item) : String :=
  if allItems = [] then "No new items."
  else
    let bySection := groupBySection allItems
    let secs := pySorted (bySection.map (fun p => p.1))
    let lines := secs.foldl
      (fun lines sec =>
        let its := (List.lookup sec bySection).getD []
        (lines ++ ["• " ++ sec]) ++ (its.take 8).map digestLine)
      ["Arbor updates:"]
    pyJoin "\n" lines

/-- The whitespace normalisation of `digest_sha` (lines 511–514). -/
def digestNorm (text : String) : String :=
  pyJoin "\n"
    (((pySplitlines (pyStrip text)).filter (fun l => pyStrip l ≠ "")).map pyRstrip) ++ "\n"

/-- `digest_sha(text)` (lines 511–514). -/
def digestSha (text : String) : String := sha (digestNorm text)

/-- The persisted state dict: the `"last"` section-fingerprint mapping and the
send-dedup bookkeeping.  Timestamps are modelled as integer seconds (the code
stores second-resolution ISO strings and compares `datetime` differences
against `timedelta(minutes=…)`). -/
structure State where
  last : List (String × String)
  lastDigestSha : Option String
  lastDigestAt : Option Int
deriving DecidableEq, Repr

/-- The empty dict returned by `load_state` for a missing file. -/
def emptyState : State := { last := [], lastDigestSha := none, lastDigestAt := none }

/-- `should_send_digest(state, digest)` (lines 516–534), with the two
`datetime.now()` calls of one invocation modelled as the single instant `now`.
Returns the decision and the updated state: suppression (an identical
normalised digest fingerprint within the interval) leaves the state untouched;
otherwise the fingerprint and send time are recorded and the digest is sent.
(The `except` arm of the source only fires on a malformed stored timestamp,
which the integer-timestamp state cannot represent.) -/
def shouldSendDigest (state : State) (digest : String) (now : Int)
    (minIntervalMinutes : Int := 30) : Bool × State :=
  let thisSha := digestSha digest
  let suppress :=
    match state.lastDigestSha, state.lastDigestAt with
    | some lastSha, some t => lastSha = thisSha && now - t < minIntervalMinutes * 60
    | _, _ => false
  if suppress then (false, state)
  else (true, { state with lastDigestSha := some thisSha, lastDigestAt := some now })

/-- The observable effects of the tail of `main`: console prints, the Telegram
`sendMessage` call, and the wholesale rewrite of the state file. -/
inductive Effect where
  | printed (s : String)
  | sent (s : String)
  | wroteState (s : State)
deriving DecidableEq, Repr

/-- `post_telegram(text)` (lines 565–571): skipped entirely without
credentials; otherwise the HTTP call is attempted and any exception is caught
and logged as a warning (the function never propagates a failure). -/
def postTelegram (configured : Bool) (callResult : Except String Unit) (text : String) :
    List Effect :=
  if configured then
    match callResult with
    | .ok _ => [Effect.sent text]
    | .error e => [Effect.sent text, Effect.printed ("[warn] telegram failed: " ++ e)]
  else []

/-- The result of one run of the engine. -/
structure RunResult where
  exitCode : Nat
  digest : Option String
  effects : List Effect
deriving DecidableEq, Repr

/-- The tail of `main` (lines 660–690), from the `if not all_items` guard
onward, as a pure function of the loaded state, the scraped items, the clock,
the Telegram configuration and the notifier outcome. -/
def mainTail (state : State) (allItems : List Item) (now : Int)
    (configured : Bool) (callResult : Except String Unit) : RunResult :=
  if allItems = [] then
    { exitCode := 0, digest := none,
      effects := [Effect.printed
        "No items gathered. Portal UI may have changed or nothing is visible for this account."] }
  else
    let current := currentFingerprints allItems
    let changed := changedSections allItems state.last
    if changed = [] then
      { exitCode := 0, digest := none, effects := [Effect.printed "No changes detected."] }
    else
      let digest := buildDigest allItems
      let sendPair := shouldSendDigest state digest now 30
      let sendEffects :=
        if sendPair.1 then postTelegram configured callResult digest
        else [Effect.printed "[info] Duplicate digest suppressed"]
      let state2 := { sendPair.2 with last := current }
      { exitCode := 0, digest := some digest,
        effects := Effect.printed digest :: sendEffects ++ [Effect.wroteState state2] }

/-! ## State loading -/

/-- `load_state` of `monitor_arbor_portal.py` (lines 500–502).  The state file
is abstracted to absent (`none`), present but unparseable (`some (.error ())`)
or parsed (`some (.ok st)`): `json.load` either returns the parsed value or
raises, and this `load_state` catches nothing, so a parse error propagates —
`main` has no handler around its call at line 589. -/
def load_state (file : Option (Except Unit State)) : Except Unit State :=
  match file with
  | none => Except.ok emptyState
  | some (Except.error _) => Except.error ()
  | some (Except.ok st) => Except.ok st

/-- The state dict of `assignments_watcher.py`. -/
structure AwState where
  lastHash : Option String
  lastSentHash : Option String
  lastSentTs : Int
deriving DecidableEq, Repr

/-- The empty state of `assignments_watcher.py` (`last_sent_ts` defaults to 0
via `state.get("last_sent_ts", 0)`). -/
def awEmptyState : AwState := { lastHash := none, lastSentHash := none, lastSentTs := 0 }

/-- `load_state` of `assignments_watcher.py` (lines 96–101): any failure —
missing file or unparseable content — yields the empty dict. -/
def awLoadState (file : Option (Except Unit AwState)) : AwState :=
  match file with
  | some (Except.ok st) => st
  | _ => awEmptyState

/-! ## The state file as modified by a trace of effects -/

/-- Whether an effect writes the state file. -/
def isWrite : Effect → Bool
  | Effect.wroteState _ => true
  | _ => false

/-- Replay a trace of effects over the state file.  `save_state` rewrites the
file wholesale with `json.dump`, which serialises a given dict
deterministically, so the file is identified with the state value it holds
(`none` = no file). -/
def applyTrace (file : Option State) (effs : List Effect) : Option State :=
  effs.foldl (fun f e => match e with | Effect.wroteState s => some s | _ => f) file

/-! ## Spec-side definitions

Written from the specification's words, to be compared with the definitions
translated from the source. -/

/-- Spec-side record serialisation: `title|meta|when`, pipe-joined, a missing
field contributing the empty string. -/
def specSerializeRecord (r : Item) : String := pyJoin "|" [r.title, r.meta, r.when]

/-- Spec-side section fingerprint: the SHA-256 hash, rendered as a hexadecimal
string, of the UTF-8 bytes of the newline-join of the serialisations of the
section's first ten records. -/
def specSectionFingerprint (rs : List Item) : String :=
  toHex64 (sha256Nat (utf8Bytes (pyJoin "\n" ((rs.take 10).map specSerializeRecord))))

/-- Spec-side digest bullet: `title (meta) — when`, the optional parts dropped
when empty. -/
def specDigestLine (r : Item) : String :=
  "  - " ++ r.title ++ (if r.meta = "" then "" else " (" ++ r.meta ++ ")") ++
    (if r.when = "" then "" else " — " ++ r.when)

/-- Spec-side digest body: a header, then every section of the snapshot in
ascending name order, each contributing its heading and at most eight bullet
lines — and nothing else (in particular no "and N more" marker). -/
def specDigestLines (items : List Item) : List String :=
  "Arbor updates:" ::
    (pySorted ((groupBySection items).map (fun p => p.1))).flatMap (fun sec =>
      ("• " ++ sec) ::
        ((((groupBySection items).lookup sec).getD []).take 8).map specDigestLine)

/-- Spec-side digest text. -/
def specDigest (items : List Item) : String := pyJoin "\n" (specDigestLines items)

/-- A change to exactly one of the three hashed fields of a record. -/
def oneFieldChanged (x y : Item) : Prop :=
  (x.title ≠ y.title ∧ x.meta = y.meta ∧ x.when = y.when) ∨
  (x.title = y.title ∧ x.meta ≠ y.meta ∧ x.when = y.when) ∨
  (x.title = y.title ∧ x.meta = y.meta ∧ x.when ≠ y.when)

/-- Distinct counts give distinct all-`a` titles. -/
def titleOfNat (n : Nat) : String := String.mk (List.replicate n 'a')

/-- The numeric digest of the fingerprint basis of a one-record section whose
title is `n` letters `a`, as an element of the finite type `Fin (2 ^ 256)`
(the reduction is shown to be the identity in `sha256Nat_lt_two_pow`). -/
def digOfNat (n : Nat) : Fin (2 ^ 256) :=
  ⟨sha256Nat (utf8Bytes (sectionBasis [⟨"Messages", titleOfNat n, "", ""⟩])) % 2 ^ 256,
   Nat.mod_lt _ (by norm_num)⟩

/-! ## Helper lemmas -/

theorem strApp_right_cancel {a b c : String} (h : a ++ c = b ++ c) : a = b := by
  have hd := congrArg String.data h
  simp only [String.data_append] at hd
  exact String.ext (List.append_cancel_right hd)

theorem strApp_left_cancel {a b c : String} (h : a ++ b = a ++ c) : b = c := by
  have hd := congrArg String.data h
  simp only [String.data_append] at hd
  exact String.ext (List.append_cancel_left hd)

theorem serializeItem_ne {x y : Item} (h : oneFieldChanged x y) :
    serializeItem x ≠ serializeItem y := by
  intro he
  unfold serializeItem at he
  rcases h with ⟨ht, hm, hw⟩ | ⟨ht, hm, hw⟩ | ⟨ht, hm, hw⟩
  · rw [hm, hw] at he
    exact ht (strApp_right_cancel
      (strApp_right_cancel (strApp_right_cancel (strApp_right_cancel he))))
  · rw [ht, hw] at he
    exact hm (strApp_left_cancel (strApp_right_cancel (strApp_right_cancel he)))
  · rw [ht, hm] at he
    exact hw (strApp_left_cancel he)

theorem pyJoin_cons_of_ne_nil (sep s : String) (l : List String) (h : l ≠ []) :
    pyJoin sep (s :: l) = s ++ sep ++ pyJoin sep l := by
  cases l with
  | nil => exact absurd rfl h
  | cons t ts => cases ts <;> rfl

theorem pyJoin_ne_mid : ∀ (L : List String) (sx sy : String) (M : List String),
    sx ≠ sy → pyJoin "\n" (L ++ sx :: M) ≠ pyJoin "\n" (L ++ sy :: M) := by
  intro L
  induction L with
  | nil =>
    intro sx sy M hne
    cases M with
    | nil => exact hne
    | cons m ms =>
      intro he
      simp only [List.nil_append] at he
      rw [pyJoin_cons_of_ne_nil "\n" sx (m :: ms) (by simp),
        pyJoin_cons_of_ne_nil "\n" sy (m :: ms) (by simp)] at he
      exact hne (strApp_right_cancel (strApp_right_cancel he))
  | cons a L ih =>
    intro sx sy M hne he
    rw [List.cons_append, List.cons_append,
      pyJoin_cons_of_ne_nil "\n" a (L ++ sx :: M) (by simp),
      pyJoin_cons_of_ne_nil "\n" a (L ++ sy :: M) (by simp)] at he
    exact ih sx sy M hne (strApp_left_cancel he)

theorem specSerializeRecord_eq (r : Item) : specSerializeRecord r = serializeItem r := by
  simp only [specSerializeRecord, serializeItem, pyJoin]
  simp [String.append_assoc]

theorem sectionFingerprint_eq_spec (rs : List Item) :
    sectionFingerprint rs = specSectionFingerprint rs := by
  have h : specSerializeRecord = serializeItem := funext specSerializeRecord_eq
  unfold sectionFingerprint sha specSectionFingerprint sectionBasis
  rw [h]

theorem foldl_wordsToNat_lt (ws : List Nat) : ∀ a : Nat,
    List.foldl (fun acc w => acc * 4294967296 + w % 4294967296) a ws <
      (a + 1) * 4294967296 ^ ws.length := by
  induction ws with
  | nil => intro a; simp
  | cons w ws ih =>
    intro a
    have h1 := ih (a * 4294967296 + w % 4294967296)
    have h2 : w % 4294967296 < 4294967296 := Nat.mod_lt _ (by norm_num)
    have h3 : (a * 4294967296 + w % 4294967296 + 1) * 4294967296 ^ ws.length ≤
        ((a + 1) * 4294967296) * 4294967296 ^ ws.length :=
      Nat.mul_le_mul_right _ (by omega)
    calc List.foldl (fun acc w => acc * 4294967296 + w % 4294967296) a (w :: ws)
        = List.foldl (fun acc w => acc * 4294967296 + w % 4294967296)
            (a * 4294967296 + w % 4294967296) ws := rfl
      _ < (a * 4294967296 + w % 4294967296 + 1) * 4294967296 ^ ws.length := h1
      _ ≤ ((a + 1) * 4294967296) * 4294967296 ^ ws.length := h3
      _ = (a + 1) * 4294967296 ^ (w :: ws).length := by
          rw [List.length_cons, pow_succ]; ring

theorem sha256Nat_lt_two_pow (msg : List Nat) : sha256Nat msg < 2 ^ 256 := by
  unfold sha256Nat
  generalize (chunks64 (shaPad msg)).foldl shaBlock shaH0 = p
  obtain ⟨h0, h1, h2, h3, h4, h5, h6, h7⟩ := p
  show wordsToNat [h0, h1, h2, h3, h4, h5, h6, h7] < 2 ^ 256
  have := foldl_wordsToNat_lt [h0, h1, h2, h3, h4, h5, h6, h7] 0
  have he : ((0 : Nat) + 1) * 4294967296 ^ ([h0, h1, h2, h3, h4, h5, h6, h7].length) =
      2 ^ 256 := by norm_num
  unfold wordsToNat
  omega

theorem take_append_cons (A : List Item) (x : Item) (B : List Item) (h : A.length < 10) :
    (A ++ x :: B).take 10 = A ++ x :: B.take (9 - A.length) := by
  rw [List.take_append_eq_append_take, List.take_of_length_le (by omega)]
  congr 1
  have h10 : 10 - A.length = (9 - A.length) + 1 := by omega
  rw [h10, List.take_succ_cons]

/-! ## Claim theorems -/

/-- C1: for every section observed in a run, the fingerprint recorded for it
is the SHA-256 hash, rendered in hexadecimal, of the UTF-8 bytes of the
newline-join of the `title|meta|when` serialisations of the section's first
ten records (missing fields contributing empty strings). -/
theorem fingerprints_match_spec (items : List Item) :
    currentFingerprints items =
      (groupBySection items).map (fun p => (p.1, specSectionFingerprint p.2)) := by
  unfold currentFingerprints
  simp [sectionFingerprint_eq_spec]

/-- C6 counterexample: changing the title of the first (and only) record of a
section does not always change the section's fingerprint — SHA-256 maps the
infinitely many one-record bases into finitely many digests, so two distinct
titles collide.  This refutes the first half of the claim as stated. -/
theorem fingerprint_sensitivity_counterexample : ∃ t t' : String, t ≠ t' ∧
    sectionFingerprint [⟨"Messages", t, "", ""⟩] =
      sectionFingerprint [⟨"Messages", t', "", ""⟩] := by
  obtain ⟨n, m, hnm, heq⟩ := Finite.exists_ne_map_eq_of_infinite digOfNat
  refine ⟨titleOfNat n, titleOfNat m, ?_, ?_⟩
  · intro h
    apply hnm
    have hd : List.replicate n 'a' = List.replicate m 'a' := congrArg String.data h
    have hlen := congrArg List.length hd
    simpa using hlen
  · have hv := congrArg Fin.val heq
    simp only [digOfNat,
      Nat.mod_eq_of_lt (sha256Nat_lt_two_pow _)] at hv
    show sha _ = sha _
    unfold sha
    exact congrArg toHex64 hv

/-- C6 amended: changing exactly one of the hashed fields of a record among
the first ten changes the hashed basis string — hence any two such runs with
equal fingerprints exhibit an outright SHA-256 collision — while changing only
records beyond the tenth never changes the fingerprint. -/
theorem fingerprint_sensitivity :
    (∀ (A B : List Item) (x y : Item), A.length < 10 → oneFieldChanged x y →
        sectionBasis (A ++ x :: B) ≠ sectionBasis (A ++ y :: B)) ∧
    (∀ (A B : List Item) (x y : Item), A.length < 10 → oneFieldChanged x y →
        sectionFingerprint (A ++ x :: B) = sectionFingerprint (A ++ y :: B) →
        ∃ u v : String, u ≠ v ∧ sha u = sha v) ∧
    (∀ xs ys : List Item, xs.take 10 = ys.take 10 →
        sectionFingerprint xs = sectionFingerprint ys) := by
  have hbasis : ∀ (A B : List Item) (x y : Item), A.length < 10 → oneFieldChanged x y →
      sectionBasis (A ++ x :: B) ≠ sectionBasis (A ++ y :: B) := by
    intro A B x y hA hxy
    unfold sectionBasis
    rw [take_append_cons A x B hA, take_append_cons A y B hA]
    simp only [List.map_append, List.map_cons]
    exact pyJoin_ne_mid _ _ _ _ (serializeItem_ne hxy)
  refine ⟨hbasis, ?_, ?_⟩
  · intro A B x y hA hxy hfp
    exact ⟨sectionBasis (A ++ x :: B), sectionBasis (A ++ y :: B),
      hbasis A B x y hA hxy, hfp⟩
  · intro xs ys h
    unfold sectionFingerprint sectionBasis
    rw [h]

/-- C2: a section name is reported as changed exactly when it occurs in the
current snapshot with a fingerprint that the baseline does not record for it
(a missing baseline entry never equals the fingerprint, so first observations
count as changed); in particular a name present only in the baseline is never
reported. -/
theorem changed_sections_characterisation (items : List Item)
    (last : List (String × String)) (sec : String) :
    (sec ∈ changedSections items last ↔
      ∃ fp, (sec, fp) ∈ currentFingerprints items ∧ List.lookup sec last ≠ some fp) ∧
    (sec ∈ changedSections items last →
      sec ∈ (currentFingerprints items).map (fun p => p.1)) := by
  constructor
  · constructor
    · intro h
      simp only [changedSections, List.mem_map, List.mem_filter, bne_iff_ne, ne_eq,
        decide_not, Bool.not_eq_eq_eq_not, Bool.not_true, decide_eq_false_iff_not] at h
      obtain ⟨p, ⟨hmem, hne⟩, hfst⟩ := h
      refine ⟨sectionFingerprint p.2, ?_, ?_⟩
      · simp only [currentFingerprints, List.mem_map]
        exact ⟨p, hmem, by rw [hfst]⟩
      · rw [← hfst]; exact hne
    · rintro ⟨fp, hmem, hne⟩
      simp only [currentFingerprints, List.mem_map] at hmem
      obtain ⟨p, hp, hpe⟩ := hmem
      have h1 : p.1 = sec := congrArg Prod.fst hpe
      have h2 : sectionFingerprint p.2 = fp := congrArg Prod.snd hpe
      simp only [changedSections, List.mem_map, List.mem_filter, bne_iff_ne, ne_eq,
        decide_not, Bool.not_eq_eq_eq_not, Bool.not_true, decide_eq_false_iff_not]
      exact ⟨p, ⟨hp, by rw [h1, h2]; exact hne⟩, h1⟩
  · intro h
    simp only [changedSections, List.mem_map, List.mem_filter] at h
    obtain ⟨p, ⟨hmem, _⟩, hfst⟩ := h
    simp only [currentFingerprints, List.mem_map]
    exact ⟨(p.1, sectionFingerprint p.2), ⟨p, hmem, rfl⟩, hfst⟩

/-- C10: a run whose snapshot yields no items at all exits successfully before
the diff step — no digest, no notification attempt, and no write to the state
file, whatever baseline was previously persisted. -/
theorem empty_snapshot_short_circuit (st : State) (now : Int) (cfg : Bool)
    (res : Except String Unit) :
    (mainTail st [] now cfg res).exitCode = 0 ∧
    (mainTail st [] now cfg res).digest = none ∧
    (∀ s, Effect.sent s ∉ (mainTail st [] now cfg res).effects) ∧
    (∀ s, Effect.wroteState s ∉ (mainTail st [] now cfg res).effects) := by
  simp [mainTail]

/-- C3: a run whose changed-section set is empty short-circuits — no digest is
built, the notifier is never called, and the state file is not rewritten. -/
theorem no_changes_short_circuit (st : State) (items : List Item) (now : Int)
    (cfg : Bool) (res : Except String Unit)
    (h : changedSections items st.last = []) :
    (mainTail st items now cfg res).digest = none ∧
    (∀ s, Effect.sent s ∉ (mainTail st items now cfg res).effects) ∧
    (∀ s, Effect.wroteState s ∉ (mainTail st items now cfg res).effects) := by
  by_cases hi : items = [] <;> simp [mainTail, hi, h]

/-- The run result of the main branch (items gathered, changes detected). -/
theorem mainTail_eq_main (st : State) (items : List Item) (now : Int) (cfg : Bool)
    (res : Except String Unit) (hi : items ≠ [])
    (hch : changedSections items st.last ≠ []) :
    mainTail st items now cfg res =
      { exitCode := 0, digest := some (buildDigest items),
        effects := Effect.printed (buildDigest items) ::
          (if (shouldSendDigest st (buildDigest items) now 30).1
            then postTelegram cfg res (buildDigest items)
            else [Effect.printed "[info] Duplicate digest suppressed"]) ++
          [Effect.wroteState
            { (shouldSendDigest st (buildDigest items) now 30).2 with
              last := currentFingerprints items }] } := by
  simp [mainTail, hi, hch]

/-- A write-free trace leaves the state file untouched. -/
theorem applyTrace_no_write (file : Option State) (effs : List Effect)
    (h : ∀ e ∈ effs, isWrite e = false) : applyTrace file effs = file := by
  induction effs generalizing file with
  | nil => rfl
  | cons e es ih =>
    cases e with
    | printed s => exact ih file (fun x hx => h x (List.mem_cons_of_mem _ hx))
    | sent s => exact ih file (fun x hx => h x (List.mem_cons_of_mem _ hx))
    | wroteState s => exact absurd (h _ (List.mem_cons_self _ _)) (by simp [isWrite])

/-- The three persistence facts for a trace of non-writes capped by a single
state write: at most one write, the write last, and every proper prefix
leaving the file untouched. -/
theorem trace_props_concat (pre : List Effect) (st2 : State)
    (hpre : ∀ e ∈ pre, isWrite e = false) (file : Option State) :
    (((pre ++ [Effect.wroteState st2]).filter isWrite).length ≤ 1) ∧
    (∀ s, Effect.wroteState s ∈ pre ++ [Effect.wroteState st2] →
        (pre ++ [Effect.wroteState st2]).getLast? = some (Effect.wroteState s)) ∧
    (∀ n, applyTrace file ((pre ++ [Effect.wroteState st2]).take n) = file ∨
        (pre ++ [Effect.wroteState st2]).take n = pre ++ [Effect.wroteState st2]) := by
  have hfil : pre.filter isWrite = [] := by
    rw [List.filter_eq_nil_iff]
    intro a ha
    simp [hpre a ha]
  refine ⟨?_, ?_, ?_⟩
  · rw [List.filter_append, hfil]
    simp [isWrite]
  · intro s hs
    rcases List.mem_append.mp hs with h | h
    · exact absurd (hpre _ h) (by simp [isWrite])
    · simp only [List.mem_singleton] at h
      injection h with h2
      rw [h2, List.getLast?_concat]
  · intro n
    by_cases hn : n ≤ pre.length
    · left
      rw [List.take_append_eq_append_take]
      have h0 : n - pre.length = 0 := by omega
      rw [h0]
      simp only [List.take_zero, List.append_nil]
      exact applyTrace_no_write file _ (fun e he => hpre e (List.take_subset _ _ he))
    · right
      apply List.take_of_length_le
      simp only [List.length_append, List.length_singleton]
      omega

/-- The three persistence facts for an entirely write-free trace. -/
theorem trace_props_no_write (effs : List Effect)
    (h : ∀ e ∈ effs, isWrite e = false) (file : Option State) :
    ((effs.filter isWrite).length ≤ 1) ∧
    (∀ s, Effect.wroteState s ∈ effs → effs.getLast? = some (Effect.wroteState s)) ∧
    (∀ n, applyTrace file (effs.take n) = file ∨ effs.take n = effs) := by
  refine ⟨?_, ?_, ?_⟩
  · have : effs.filter isWrite = [] := by
      rw [List.filter_eq_nil_iff]; intro a ha; simp [h a ha]
    simp [this]
  · intro s hs
    exact absurd (h _ hs) (by simp [isWrite])
  · intro n
    left
    exact applyTrace_no_write file _ (fun e he => h e (List.take_subset _ _ he))

/-- C9: the state file is rewritten at most once per run, only as the very
last observable action, and a run interrupted anywhere before that write —
in particular after the new fingerprints were computed — leaves the
previously persisted baseline exactly as it was. -/
theorem baseline_written_once_at_end (st : State) (items : List Item) (now : Int)
    (cfg : Bool) (res : Except String Unit) (file : Option State) :
    (((mainTail st items now cfg res).effects.filter isWrite).length ≤ 1) ∧
    (∀ s, Effect.wroteState s ∈ (mainTail st items now cfg res).effects →
        (mainTail st items now cfg res).effects.getLast? = some (Effect.wroteState s)) ∧
    (∀ n, applyTrace file ((mainTail st items now cfg res).effects.take n) = file ∨
        (mainTail st items now cfg res).effects.take n =
          (mainTail st items now cfg res).effects) := by
  by_cases hi : items = []
  · subst hi
    apply trace_props_no_write
    intro e he
    simp [mainTail] at he
    subst he; rfl
  · by_cases hch : changedSections items st.last = []
    · apply trace_props_no_write
      intro e he
      simp [mainTail, hi, hch] at he
      subst he; rfl
    · rw [mainTail_eq_main st items now cfg res hi hch]
      show (((Effect.printed (buildDigest items) ::
          (if (shouldSendDigest st (buildDigest items) now 30).1
            then postTelegram cfg res (buildDigest items)
            else [Effect.printed "[info] Duplicate digest suppressed"])) ++
          [Effect.wroteState _]).filter isWrite).length ≤ 1 ∧ _
      apply trace_props_concat
      intro e he
      rcases List.mem_cons.mp he with h | h
      · subst h; rfl
      · split at h
        · unfold postTelegram at h
          split at h
          · split at h
            · simp only [List.mem_singleton] at h; subst h; rfl
            · rcases List.mem_cons.mp h with h2 | h2
              · subst h2; rfl
              · simp only [List.mem_singleton] at h2; subst h2; rfl
          · simp at h
        · simp only [List.mem_singleton] at h; subst h; rfl

/-- Witness for C3 at a concrete run: one section, baseline already holding
its fingerprint. -/
theorem no_changes_short_circuit_witness :
    (mainTail ⟨[("S", sectionFingerprint [⟨"S", "t", "m", "w"⟩])], none, none⟩
        [⟨"S", "t", "m", "w"⟩] 0 true (Except.ok ())).digest = none ∧
    (∀ s, Effect.sent s ∉ (mainTail ⟨[("S", sectionFingerprint [⟨"S", "t", "m", "w"⟩])],
        none, none⟩ [⟨"S", "t", "m", "w"⟩] 0 true (Except.ok ())).effects) ∧
    (∀ s, Effect.wroteState s ∉ (mainTail ⟨[("S", sectionFingerprint [⟨"S", "t", "m", "w"⟩])],
        none, none⟩ [⟨"S", "t", "m", "w"⟩] 0 true (Except.ok ())).effects) :=
  no_changes_short_circuit ⟨[("S", sectionFingerprint [⟨"S", "t", "m", "w"⟩])], none, none⟩
    [⟨"S", "t", "m", "w"⟩] 0 true (Except.ok ()) (by decide)

/-- C7: when the Telegram delivery call fails, the failure is caught and
logged as a warning, and the run still persists the new per-section baseline
as its final action. -/
theorem notifier_failure_nonfatal (st : State) (items : List Item) (now : Int)
    (e : String)
    (hch : changedSections items st.last ≠ [])
    (hsend : (shouldSendDigest st (buildDigest items) now 30).1 = true) :
    Effect.printed ("[warn] telegram failed: " ++ e) ∈
      (mainTail st items now true (Except.error e)).effects ∧
    Effect.wroteState { (shouldSendDigest st (buildDigest items) now 30).2 with
        last := currentFingerprints items } ∈
      (mainTail st items now true (Except.error e)).effects ∧
    (mainTail st items now true (Except.error e)).effects.getLast? =
      some (Effect.wroteState { (shouldSendDigest st (buildDigest items) now 30).2 with
        last := currentFingerprints items }) := by
  have hi : items ≠ [] := by
    intro h; subst h; exact hch rfl
  rw [mainTail_eq_main st items now true (Except.error e) hi hch]
  simp only [hsend, if_true, postTelegram]
  refine ⟨by simp, by simp, rfl⟩

/-- Witness for C7: first run over one section with a failing notifier. -/
theorem notifier_failure_nonfatal_witness :
    Effect.printed ("[warn] telegram failed: " ++ "boom") ∈
      (mainTail emptyState [⟨"S", "t", "m", "w"⟩] 0 true (Except.error "boom")).effects ∧
    Effect.wroteState { (shouldSendDigest emptyState (buildDigest [⟨"S", "t", "m", "w"⟩]) 0 30).2
        with last := currentFingerprints [⟨"S", "t", "m", "w"⟩] } ∈
      (mainTail emptyState [⟨"S", "t", "m", "w"⟩] 0 true (Except.error "boom")).effects ∧
    (mainTail emptyState [⟨"S", "t", "m", "w"⟩] 0 true (Except.error "boom")).effects.getLast? =
      some (Effect.wroteState
        { (shouldSendDigest emptyState (buildDigest [⟨"S", "t", "m", "w"⟩]) 0 30).2 with
          last := currentFingerprints [⟨"S", "t", "m", "w"⟩] }) :=
  notifier_failure_nonfatal emptyState [⟨"S", "t", "m", "w"⟩] 0 "boom" (by decide) rfl

/-- C4: with changes detected and the previous send bookkeeping matching the
new digest's normalised fingerprint, a repeat within the cooldown suppresses
delivery while the per-section baseline still updates to the current
fingerprints; once the cooldown has elapsed the delivery is attempted and the
digest fingerprint and send time are re-recorded alongside the baseline. -/
theorem cooldown_policy (st : State) (items : List Item) (now t : Int) (cfg : Bool)
    (res : Except String Unit)
    (hch : changedSections items st.last ≠ [])
    (hsha : st.lastDigestSha = some (digestSha (buildDigest items)))
    (hat : st.lastDigestAt = some t) :
    (now - t < 1800 →
      (∀ s, Effect.sent s ∉ (mainTail st items now cfg res).effects) ∧
      Effect.wroteState { st with last := currentFingerprints items } ∈
        (mainTail st items now cfg res).effects) ∧
    (1800 ≤ now - t →
      (cfg = true →
        Effect.sent (buildDigest items) ∈ (mainTail st items now cfg res).effects) ∧
      Effect.wroteState ⟨currentFingerprints items,
          some (digestSha (buildDigest items)), some now⟩ ∈
        (mainTail st items now cfg res).effects) := by
  have hi : items ≠ [] := by
    intro h; subst h; exact hch rfl
  rw [mainTail_eq_main st items now cfg res hi hch]
  have hpair : shouldSendDigest st (buildDigest items) now 30 =
      (if now - t < 1800 then (false, st)
       else (true, { st with lastDigestSha := some (digestSha (buildDigest items)),
                             lastDigestAt := some now })) := by
    unfold shouldSendDigest
    rw [hsha, hat]
    by_cases hlt : now - t < 1800
    · simp [hlt, hsha.symm, hat.symm]
    · simp [hlt]
  constructor
  · intro hlt
    rw [hpair]
    simp only [if_pos hlt]
    refine ⟨by intro s; simp, by simp⟩
  · intro hge
    have hlt : ¬ now - t < 1800 := by omega
    rw [hpair]
    simp only [if_neg hlt]
    constructor
    · intro hcfg
      subst hcfg
      unfold postTelegram
      cases res <;> simp
    · simp

/-- Witness for C4: one section, the baseline bookkeeping holding the digest's
own fingerprint from a send at time 0, observed again at time 2000 (cooldown
elapsed). -/
theorem cooldown_policy_witness :
    ((2000 : Int) - 0 < 1800 →
      (∀ s, Effect.sent s ∉ (mainTail ⟨[], some (digestSha (buildDigest [⟨"S", "t", "", ""⟩])),
          some 0⟩ [⟨"S", "t", "", ""⟩] 2000 true (Except.ok ())).effects) ∧
      Effect.wroteState { (⟨[], some (digestSha (buildDigest [⟨"S", "t", "", ""⟩])), some 0⟩ : State)
          with last := currentFingerprints [⟨"S", "t", "", ""⟩] } ∈
        (mainTail ⟨[], some (digestSha (buildDigest [⟨"S", "t", "", ""⟩])), some 0⟩
          [⟨"S", "t", "", ""⟩] 2000 true (Except.ok ())).effects) ∧
    ((1800 : Int) ≤ 2000 - 0 →
      (true = true →
        Effect.sent (buildDigest [⟨"S", "t", "", ""⟩]) ∈
          (mainTail ⟨[], some (digestSha (buildDigest [⟨"S", "t", "", ""⟩])), some 0⟩
            [⟨"S", "t", "", ""⟩] 2000 true (Except.ok ())).effects) ∧
      Effect.wroteState ⟨currentFingerprints [⟨"S", "t", "", ""⟩],
          some (digestSha (buildDigest [⟨"S", "t", "", ""⟩])), some 2000⟩ ∈
        (mainTail ⟨[], some (digestSha (buildDigest [⟨"S", "t", "", ""⟩])), some 0⟩
          [⟨"S", "t", "", ""⟩] 2000 true (Except.ok ())).effects) :=
  cooldown_policy ⟨[], some (digestSha (buildDigest [⟨"S", "t", "", ""⟩])), some 0⟩
    [⟨"S", "t", "", ""⟩] 2000 0 true (Except.ok ()) (by decide) rfl rfl

/-- Accumulating heading-plus-rows line building is a flat map. -/
theorem foldl_lines_eq_flatMap (l : List String) (hd : String → String)
    (g : String → List String) : ∀ init : List String,
    l.foldl (fun lines sec => (lines ++ [hd sec]) ++ g sec) init =
      init ++ l.flatMap (fun sec => hd sec :: g sec) := by
  induction l with
  | nil => intro init; simp
  | cons a l ih =>
    intro init
    rw [List.foldl_cons, ih, List.flatMap_cons]
    simp [List.append_assoc]

/-- `build_digest` renders the spec-side digest of the full snapshot. -/
theorem buildDigest_eq_spec (items : List Item) (hi : items ≠ []) :
    buildDigest items = specDigest items := by
  unfold buildDigest specDigest specDigestLines
  rw [if_neg hi]
  simp only []
  rw [foldl_lines_eq_flatMap]
  rfl

/-- C5 counterexample: a run in which only section `A` changed still produces
a digest carrying section `B`'s heading — the digest is built from the whole
snapshot, not from the changed sections alone. -/
theorem digest_not_only_changed_sections :
    changedSections [⟨"A", "ta", "", ""⟩, ⟨"B", "tb", "", ""⟩]
        [("B", sectionFingerprint [⟨"B", "tb", "", ""⟩])] = ["A"] ∧
    (mainTail ⟨[("B", sectionFingerprint [⟨"B", "tb", "", ""⟩])], none, none⟩
        [⟨"A", "ta", "", ""⟩, ⟨"B", "tb", "", ""⟩] 0 false (Except.ok ())).digest =
      some (buildDigest [⟨"A", "ta", "", ""⟩, ⟨"B", "tb", "", ""⟩]) ∧
    "• B" ∈ pySplitlines (buildDigest [⟨"A", "ta", "", ""⟩, ⟨"B", "tb", "", ""⟩]) :=
  ⟨by decide, by decide, by decide⟩

/-- C5 amended: every digest a run produces formats the full current snapshot
— every section with items, in ascending name order, as a heading followed by
at most eight leading records rendered `title (meta) — when`, with no
truncation marker. -/
theorem digest_formats_full_snapshot (st : State) (items : List Item) (now : Int)
    (cfg : Bool) (res : Except String Unit) (d : String)
    (h : (mainTail st items now cfg res).digest = some d) :
    d = specDigest items := by
  by_cases hi : items = []
  · subst hi
    simp [mainTail] at h
  · by_cases hch : changedSections items st.last = []
    · simp [mainTail, hi, hch] at h
    · rw [mainTail_eq_main st items now cfg res hi hch] at h
      simp only [Option.some.injEq] at h
      rw [← h]
      exact buildDigest_eq_spec items hi

/-- Witness for C5's amended claim: a first run over one section. -/
theorem digest_formats_full_snapshot_witness :
    buildDigest [⟨"A", "ta", "", ""⟩] = specDigest [⟨"A", "ta", "", ""⟩] :=
  digest_formats_full_snapshot emptyState [⟨"A", "ta", "", ""⟩] 0 false (Except.ok ())
    (buildDigest [⟨"A", "ta", "", ""⟩]) (by decide)

/-- C8 counterexample: in `monitor_arbor_portal.py` a state file that is
present but unparseable is not treated as an empty baseline — `load_state`
propagates the parse error (and `main` has no handler for it), instead of
returning the empty mapping. -/
theorem corrupt_state_fatal_in_monitor :
    load_state (some (Except.error ())) = Except.error () := rfl

/-- C8 amended: a missing state file is loaded as the empty baseline (in both
watchers), a corrupt one is loaded as the empty baseline in
`assignments_watcher.py` only, and under an empty baseline every section of
the snapshot is reported as changed — the first-run bootstrap behaviour. -/
theorem missing_state_bootstraps :
    load_state none = Except.ok emptyState ∧
    awLoadState none = awEmptyState ∧
    awLoadState (some (Except.error ())) = awEmptyState ∧
    (∀ (items : List Item) (sec : String),
      sec ∈ (groupBySection items).map (fun p => p.1) →
      sec ∈ changedSections items emptyState.last) := by
  refine ⟨rfl, rfl, rfl, ?_⟩
  intro items sec h
  simp only [List.mem_map] at h
  obtain ⟨p, hp, hfst⟩ := h
  simp only [changedSections, List.mem_map, List.mem_filter]
  refine ⟨p, ⟨hp, ?_⟩, hfst⟩
  rfl

end ArborWatcher
